import Mathlib

/-!
Shallow embedding of the TENAMINT NFT-challenge contract (src/src/lib.rs).

The contract state is `Contract`; the NEAR `u64` counters are modelled as
`Nat` (every operation proved here keeps them at most `winner_limit`, far
below `2^64`, so wrap-around never occurs on the modelled paths).  A Rust
`panic!` aborts the NEAR receipt and reverts every state write of that
receipt, so a panicking entry point is modelled as `Except.error e` (state
unchanged); a panic inside a saga callback is modelled as `none` — the
callback's own writes revert, the saga never reaches a terminal branch, and
the reserved slot stays consumed.

Promise results (`near_sdk::PromiseResult`) are modelled per callback:
a failed promise, or a successful one whose payload does not deserialize,
are distinguished explicitly.  Token ids (`TokenCompliant.token_id`, a
numeric string the code parses with `.parse().unwrap()`) are modelled
already parsed, as `Nat`.
-/

namespace NFTChallenge

/-- The mutable contract state together with the configuration fields the
claims refer to (src/src/lib.rs, `struct Contract`).  `winners` models the
`LookupMap<AccountId, u64>` as an association list. -/
structure Contract where
  owner_id : String
  challenge_nft_ids : List String
  burn_challenge_piece_on_claim : List Bool
  expiration_date_in_ns : Nat
  winner_limit : Nat
  winner_count : Nat
  winners : List (String × Nat)
  potential_winners_left : Nat
  challenge_completed : Bool
  creator_can_update : Bool
  deriving Repr, DecidableEq

/-- `LookupMap::insert`: replace the value at the key, or append. -/
def mapInsert (k : String) (v : Nat) : List (String × Nat) → List (String × Nat)
  | [] => [(k, v)]
  | (k', v') :: rest => if k' = k then (k, v) :: rest else (k', v') :: mapInsert k v rest

/-- `LookupMap::contains_key`. -/
def mapContains (k : String) (m : List (String × Nat)) : Bool :=
  m.any (fun p => decide (p.1 = k))

/-- `Contract::new` (src/src/lib.rs lines 93-150): asserts the two parallel
lists have equal, positive length and that the challenge nft ids are
pairwise distinct, then initialises `winner_count = 0`,
`potential_winners_left = winner_limit`, `challenge_completed = false`,
empty winners map.  `none` models the assertion panics. -/
def Contract.new (owner_id : String) (ids : List String) (flags : List Bool)
    (expiration_date_in_ns : Nat) (winner_limit : Nat)
    (creator_can_update : Bool) : Option Contract :=
  if ids.length = flags.length ∧ 0 < ids.length ∧ ids.Nodup then
    some { owner_id := owner_id
           challenge_nft_ids := ids
           burn_challenge_piece_on_claim := flags
           expiration_date_in_ns := expiration_date_in_ns
           winner_limit := winner_limit
           winner_count := 0
           winners := []
           potential_winners_left := winner_limit
           challenge_completed := false
           creator_can_update := creator_can_update }
  else none

/-- `is_challenge_expired` (lines 183-189): `block_timestamp >= expiration`. -/
def is_challenge_expired (c : Contract) (now : Nat) : Bool :=
  decide (now ≥ c.expiration_date_in_ns)

/-- `is_account_winner` (lines 195-197). -/
def is_account_winner (c : Contract) (account : String) : Bool :=
  mapContains account c.winners

/-- `ensure_challenge_not_expired` (lines 501-506): when
`block_timestamp > expiration` it sets `challenge_completed = true`;
it returns the (possibly updated) `challenge_completed` flag. -/
def ensure_challenge_not_expired (c : Contract) (now : Nat) : Contract × Bool :=
  let c' := if now > c.expiration_date_in_ns then { c with challenge_completed := true } else c
  (c', c'.challenge_completed)

/-- The distinct `panic!` reasons of `initiate_claim` (lines 238-287). -/
inductive ClaimError where
  /-- "Challenge currently at max potential winners" -/
  | maxPotentialWinners
  /-- "Challenge is not accepting any more winners" -/
  | winnerLimitReached
  /-- "Challenge is over" -/
  | challengeOver
  /-- "Challenge is expired" -/
  | expired
  /-- "You have already won this challenge" -/
  | alreadyWon
  /-- "Error in the promises" (empty fan-out reduction) -/
  | noPromises
  deriving Repr, DecidableEq

/-- `initiate_claim` (lines 238-287): the five precondition checks in source
order, then `decrement_winners` (the slot reservation) and the ownership
fan-out.  An error models a panic: the receipt reverts, so the caller
observes the original state (in particular the `challenge_completed = true`
write of the expiry check is reverted by the "Challenge is expired" panic). -/
def initiate_claim (c : Contract) (caller : String) (now : Nat) :
    Except ClaimError Contract :=
  if c.potential_winners_left = 0 then .error .maxPotentialWinners
  else if c.winner_count ≥ c.winner_limit then .error .winnerLimitReached
  else if c.challenge_completed then .error .challengeOver
  else if (ensure_challenge_not_expired c now).2 then .error .expired
  else if is_account_winner c caller then .error .alreadyWon
  else if c.challenge_nft_ids.isEmpty then .error .noPromises
  else .ok { c with potential_winners_left := c.potential_winners_left - 1 }

/-- The state a caller observes after an `initiate_claim` attempt: on a
panic the receipt reverts, leaving the state unchanged. -/
def attemptClaim (c : Contract) (caller : String) (now : Nat) : Contract :=
  match initiate_claim c caller now with
  | .ok c' => c'
  | .error _ => c

/-- One `nft_tokens_for_owner` promise result as `on_claim` sees it:
a failed promise, or a successful payload that either fails to deserialize
(`none`) or yields the token-id list. -/
inductive OwnResult where
  | failed
  | successful (tokens : Option (List Nat))
  deriving Repr, DecidableEq

/-- The per-index ownership verdict of `on_claim`'s map closure
(lines 292-318): failed, undeserializable and empty results count as
not-owned; a non-empty list counts as owned. -/
def ownVerdict : OwnResult → Bool
  | .failed => false
  | .successful none => false
  | .successful (some toks) => decide (toks.length ≠ 0)

/-- The `token_ids_to_burn` accumulation of `on_claim` (lines 291-317):
walking the promise results in index order, an owned index whose
`burn_challenge_piece_on_claim[index]` flag is set contributes the first
returned token's id.  `none` models the panic of the flag indexing when
`index` is out of bounds of the flag list. -/
def burnTokensAux (flags : List Bool) : Nat → List OwnResult → Option (List Nat)
  | _, [] => some []
  | i, OwnResult.successful (some (t :: _)) :: rs =>
    match flags[i]? with
    | none => none
    | some true => (burnTokensAux flags (i + 1) rs).map (fun l => t :: l)
    | some false => burnTokensAux flags (i + 1) rs
  | i, _ :: rs => burnTokensAux flags (i + 1) rs

/-- The three ways `on_claim` can end. -/
inductive ClaimOutcome where
  /-- some index was not owned: the slot was released and the saga ended;
  the payload is the index named in the log line
  "Account does not own any of challenge nfts at {i}". -/
  | notOwned (idx : Nat)
  /-- nothing to burn: the winner was committed and the saga ended. -/
  | committed
  /-- burn-flagged tokens were captured; the saga proceeds to the approval
  stage carrying this token-id list. -/
  | proceedBurn (tokenIds : List Nat)
  deriving Repr, DecidableEq

/-- `on_claim` (lines 290-332): compute the per-index verdicts and the
burn-token capture; on the first not-owned index release the slot
(`increment_winners`) and stop; otherwise commit immediately when the
capture is empty, else proceed to the approval stage.  `none` models a
panic inside the callback (flag indexing out of bounds). -/
def on_claim (c : Contract) (winner_id : String) (results : List OwnResult) :
    Option (Contract × ClaimOutcome) :=
  match burnTokensAux c.burn_challenge_piece_on_claim 0 results with
  | none => none
  | some tokenIds =>
    match (results.map ownVerdict).findIdx? (fun b => !b) with
    | some i =>
      some ({ c with potential_winners_left := c.potential_winners_left + 1 },
            ClaimOutcome.notOwned i)
    | none =>
      if tokenIds.length = 0 then
        some ({ c with winner_count := c.winner_count + 1,
                       winners := mapInsert winner_id 1 c.winners },
              ClaimOutcome.committed)
      else
        some (c, ClaimOutcome.proceedBurn tokenIds)

/-- The approval fan-out of `have_approvals_for_transfers` (lines 336-361):
for every index `i` of the burn-flag list it pairs
`challenge_nft_ids[i]` with `token_ids[i]` (one `nft_approval_id` call per
required item).  `none` models the indexing panic when either list is
shorter than the flag list. -/
def approvalCallsAux (ids : List String) (toks : List Nat) :
    Nat → Nat → Option (List (String × Nat))
  | 0, _ => some []
  | n + 1, i =>
    match ids[i]?, toks[i]? with
    | some cid, some t => (approvalCallsAux ids toks n (i + 1)).map (fun l => (cid, t) :: l)
    | _, _ => none

/-- `have_approvals_for_transfers` (lines 336-361): build the approval-call
list; an empty reduction also panics ("No nfts to burn."). -/
def have_approvals_for_transfers (c : Contract) (tokenIds : List Nat) :
    Option (List (String × Nat)) :=
  match approvalCallsAux c.challenge_nft_ids tokenIds
      c.burn_challenge_piece_on_claim.length 0 with
  | none => none
  | some [] => none
  | some l => some l

/-- One `nft_approval_id` promise result as `on_approval_check` sees it:
failed promise, or successful payload that deserializes to a `u64` or not. -/
inductive ApprovalResult where
  | failed
  | successful (parsed : Option Nat)
  deriving Repr, DecidableEq

/-- The per-index approval extraction of `on_approval_check`'s map closure
(lines 366-391): a failed promise or an undeserializable payload yields
`none` (with a log naming the index); a deserialized `u64` yields it. -/
def approvalValue : ApprovalResult → Option Nat
  | .failed => none
  | .successful p => p

/-- The transfer fan-out built at lines 398-415: for every index `i` of the
burn-flag list, an `nft_transfer` call on `challenge_nft_ids[i]` carrying
`token_ids[i]` and `approvals[i].unwrap()`.  `none` models the indexing or
`unwrap` panics, and the empty-reduction panic at line 417. -/
def transferCallsAux (ids : List String) (toks : List Nat) (apps : List (Option Nat)) :
    Nat → Nat → Option (List (String × Nat × Nat))
  | 0, _ => some []
  | n + 1, i =>
    match ids[i]?, toks[i]?, apps[i]? with
    | some cid, some t, some (some a) =>
      (transferCallsAux ids toks apps n (i + 1)).map (fun l => (cid, t, a) :: l)
    | _, _, _ => none

/-- The two ways `on_approval_check` can end. -/
inductive ApprovalOutcome where
  /-- some index lacked a usable approval: the slot was released and the
  saga ended (`Promise::new(current).as_return()`). -/
  | failure
  /-- every approval deserialized: the saga proceeds with these
  `(contract, token, approval)` transfer calls. -/
  | proceed (transfers : List (String × Nat × Nat))
  deriving Repr, DecidableEq

/-- `on_approval_check` (lines 365-426): extract the approvals from the
promise results; on the first missing approval release the slot and stop;
otherwise build the transfer fan-out.  `none` models a panic inside the
callback. -/
def on_approval_check (c : Contract) (tokenIds : List Nat)
    (results : List ApprovalResult) : Option (Contract × ApprovalOutcome) :=
  match (results.map approvalValue).findIdx? (fun a => a.isNone) with
  | some _ =>
    some ({ c with potential_winners_left := c.potential_winners_left + 1 },
          ApprovalOutcome.failure)
  | none =>
    match transferCallsAux c.challenge_nft_ids tokenIds (results.map approvalValue)
        c.burn_challenge_piece_on_claim.length 0 with
    | none => none
    | some [] => none
    | some ts => some (c, ApprovalOutcome.proceed ts)

/-- The burn fan-out of `burn_nfts` (lines 430-457): for every index `i` of
the burn-flag list, an `nft_batch_burn` call on `challenge_nft_ids[i]` for
`token_ids[i]`.  `none` models the indexing and empty-reduction panics. -/
def burn_nfts_calls (c : Contract) (tokenIds : List Nat) :
    Option (List (String × Nat)) :=
  match approvalCallsAux c.challenge_nft_ids tokenIds
      c.burn_challenge_piece_on_claim.length 0 with
  | none => none
  | some [] => none
  | some l => some l

/-- One `nft_batch_burn` promise result as `on_burn_nfts` sees it (the
successful payload is ignored by the code). -/
inductive BurnResult where
  | failed
  | successful
  deriving Repr, DecidableEq

/-- The per-index verdict of `on_burn_nfts`'s map closure (lines 461-480). -/
def burnVerdict : BurnResult → Bool
  | .failed => false
  | .successful => true

/-- `on_burn_nfts` (lines 460-490): on the first failed burn release the
slot and return `false`; if every burn succeeded, commit the winner
(`winner_count += 1`, insert into the winners map) and return `true`. -/
def on_burn_nfts (c : Contract) (winner_id : String) (results : List BurnResult) :
    Contract × Bool :=
  match (results.map burnVerdict).findIdx? (fun b => !b) with
  | some _ =>
    ({ c with potential_winners_left := c.potential_winners_left + 1 }, false)
  | none =>
    ({ c with winner_count := c.winner_count + 1,
              winners := mapInsert winner_id 1 c.winners }, true)

/-- The panic reasons of `update_challenge_completion_status` (492-499). -/
inductive ToggleError where
  /-- "This method can only be called by the challenge owner" -/
  | notOwner
  /-- "The creator cannot update the completion status of this challenge" -/
  | cannotUpdate
  deriving Repr, DecidableEq

/-- `update_challenge_completion_status` (lines 492-499): owner-gated;
when `creator_can_update` it sets `challenge_completed` to the argument. -/
def update_challenge_completion_status (c : Contract) (caller : String)
    (is_complete : Bool) : Except ToggleError Contract :=
  if caller ≠ c.owner_id then .error .notOwner
  else if c.creator_can_update then .ok { c with challenge_completed := is_complete }
  else .error .cannotUpdate

/-- `NearToken::as_millinear`: yoctoNEAR divided by `10^21`
(1 NEAR = `10^24` yoctoNEAR, so 1 milliNEAR = `10^21` yoctoNEAR). -/
def as_millinear (yocto : Nat) : Nat := yocto / 10 ^ 21

/-- The assertion failures of `mint_nft` (lines 206-235). -/
inductive MintError where
  /-- "You must win the challenge to mint the NFT" -/
  | notWinner
  /-- "To cover minting fees, you need to attach at least 54 millinear" -/
  | insufficientDeposit
  deriving Repr, DecidableEq

/-- `mint_nft` (lines 206-235): asserts the caller is a recorded winner and
the attached deposit is at least 54 millinear, then issues the mint promise;
it never writes any state field, so the success state equals the input. -/
def mint_nft (c : Contract) (caller : String) (deposit_yocto : Nat) :
    Except MintError Contract :=
  if ¬ is_account_winner c caller then .error .notWinner
  else if as_millinear deposit_yocto < 54 then .error .insufficientDeposit
  else .ok c

/-- `mint_nft_callback` (lines 509-517): takes `&self` (no state write);
panics when the mint promise failed. -/
def mint_nft_callback (c : Contract) (call_result : Except Unit Unit) :
    Except String Contract :=
  match call_result with
  | .error _ => .error "There was an error minting the NFT"
  | .ok _ => .ok c

/-- One complete run of the claim saga, composing `initiate_claim` with the
fan-in callbacks on externally supplied promise results.  A precondition
panic reverts the receipt, so the saga ends with the state unchanged; a
panic inside a callback (`none` branches) strands the saga before any
terminal branch, so `runSaga` is `none` there. -/
def runSaga (c : Contract) (caller : String) (now : Nat)
    (own : List OwnResult) (app : List ApprovalResult)
    (burn : List BurnResult) : Option Contract :=
  match initiate_claim c caller now with
  | .error _ => some c
  | .ok c1 =>
    match on_claim c1 caller own with
    | none => none
    | some (c2, ClaimOutcome.notOwned _) => some c2
    | some (c2, ClaimOutcome.committed) => some c2
    | some (c2, ClaimOutcome.proceedBurn tokenIds) =>
      match have_approvals_for_transfers c2 tokenIds with
      | none => none
      | some _ =>
        match on_approval_check c2 tokenIds app with
        | none => none
        | some (c3, ApprovalOutcome.failure) => some c3
        | some (c3, ApprovalOutcome.proceed _) =>
          match burn_nfts_calls c3 tokenIds with
          | none => none
          | some _ => some (on_burn_nfts c3 caller burn).1

/-- One observable state transition of the contract: a complete claim saga,
the owner's completion toggle (a panicking toggle reverts), a direct call
of the public expiry check, or a mint call (which never writes state). -/
inductive Step : Contract → Contract → Prop
  | saga (c c' : Contract) (caller : String) (now : Nat)
      (own : List OwnResult) (app : List ApprovalResult) (burn : List BurnResult) :
      runSaga c caller now own app burn = some c' → Step c c'
  | toggle (c c' : Contract) (caller : String) (b : Bool) :
      update_challenge_completion_status c caller b = .ok c' → Step c c'
  | toggleFail (c : Contract) (caller : String) (b : Bool) (e : ToggleError) :
      update_challenge_completion_status c caller b = .error e → Step c c
  | expiry (c : Contract) (now : Nat) :
      Step c (ensure_challenge_not_expired c now).1
  | mint (c c' : Contract) (caller : String) (deposit : Nat) :
      mint_nft c caller deposit = .ok c' → Step c c'

/-- States reachable from a freshly constructed contract by observable
transitions. -/
inductive Reachable : Contract → Prop
  | init (owner : String) (ids : List String) (flags : List Bool)
      (exp limit : Nat) (upd : Bool) (c : Contract) :
      Contract.new owner ids flags exp limit upd = some c → Reachable c
  | step (c c' : Contract) : Reachable c → Step c c' → Reachable c'

/-- Closed form of the `token_ids_to_burn` capture: walking the promise
results in parallel with the burn flags, an owned index (non-empty
successful result) whose flag is set contributes its first token id;
every other index contributes nothing. -/
def capturedSpec : List OwnResult → List Bool → List Nat
  | [], _ => []
  | OwnResult.successful (some (t :: _)) :: rs, true :: bs => t :: capturedSpec rs bs
  | OwnResult.successful (some (_ :: _)) :: rs, false :: bs => capturedSpec rs bs
  | _ :: rs, _ :: bs => capturedSpec rs bs
  | _ :: _, [] => []

/-- A single-item, no-burn challenge with `winner_limit = 1`
(the shape of the repository unit-test configuration, burn flag cleared). -/
def exampleSingle : Contract :=
  { owner_id := "o"
    challenge_nft_ids := ["x"]
    burn_challenge_piece_on_claim := [false]
    expiration_date_in_ns := 100
    winner_limit := 1
    winner_count := 0
    winners := []
    potential_winners_left := 1
    challenge_completed := false
    creator_can_update := true }

/-- `exampleSingle` after account `w` has claimed and committed:
`winner_count = 1`, `potential_winners_left = 0`, `w` in the winners map. -/
def exampleDone : Contract :=
  { exampleSingle with
    winner_count := 1
    potential_winners_left := 0
    winners := [("w", 1)] }

/-- A two-item challenge whose burn flags are mixed (`[true, false]`),
exactly the configuration of the repository unit test `new`. -/
def exampleMixed : Contract :=
  { owner_id := "o"
    challenge_nft_ids := ["id1", "id2"]
    burn_challenge_piece_on_claim := [true, false]
    expiration_date_in_ns := 100
    winner_limit := 5
    winner_count := 0
    winners := []
    potential_winners_left := 5
    challenge_completed := false
    creator_can_update := true }

/-! ## Helper lemmas -/

theorem mapContains_insert_self (k : String) (v : Nat) (m : List (String × Nat)) :
    mapContains k (mapInsert k v m) = true := by
  induction m with
  | nil => simp [mapInsert, mapContains]
  | cons p rest ih =>
    obtain ⟨k', v'⟩ := p
    by_cases h : k' = k <;> simp [mapInsert, mapContains, h] at ih ⊢ <;> simp_all [mapContains]

theorem initiate_ok_spec {c c1 : Contract} {caller : String} {now : Nat}
    (h : initiate_claim c caller now = Except.ok c1) :
    c1 = { c with potential_winners_left := c.potential_winners_left - 1 } ∧
    c.potential_winners_left ≠ 0 := by
  unfold initiate_claim at h
  split_ifs at h with h1 h2 h3 h4 h5 h6 <;> simp_all

theorem initiate_error_of_completed {c : Contract} {caller : String} {now : Nat}
    (h : c.challenge_completed = true) :
    ∃ e, initiate_claim c caller now = Except.error e := by
  unfold initiate_claim
  by_cases h1 : c.potential_winners_left = 0
  · rw [if_pos h1]; exact ⟨_, rfl⟩
  · rw [if_neg h1]
    by_cases h2 : c.winner_count ≥ c.winner_limit
    · rw [if_pos h2]; exact ⟨_, rfl⟩
    · rw [if_neg h2, if_pos (show c.challenge_completed = true from h)]
      exact ⟨_, rfl⟩

theorem on_claim_state {c c2 : Contract} {w : String} {rs : List OwnResult}
    {out : ClaimOutcome} (h : on_claim c w rs = some (c2, out)) :
    (∃ i, out = ClaimOutcome.notOwned i ∧
      c2 = { c with potential_winners_left := c.potential_winners_left + 1 }) ∨
    (out = ClaimOutcome.committed ∧
      c2 = { c with winner_count := c.winner_count + 1,
                    winners := mapInsert w 1 c.winners }) ∨
    (∃ toks, out = ClaimOutcome.proceedBurn toks ∧ c2 = c) := by
  unfold on_claim at h
  split at h
  · exact Option.noConfusion h
  · split at h
    · simp only [Option.some.injEq, Prod.mk.injEq] at h
      exact Or.inl ⟨_, h.2.symm, h.1.symm⟩
    · split_ifs at h
      · simp only [Option.some.injEq, Prod.mk.injEq] at h
        exact Or.inr (Or.inl ⟨h.2.symm, h.1.symm⟩)
      · simp only [Option.some.injEq, Prod.mk.injEq] at h
        exact Or.inr (Or.inr ⟨_, h.2.symm, h.1.symm⟩)

theorem on_approval_state {c c3 : Contract} {toks : List Nat}
    {rs : List ApprovalResult} {out : ApprovalOutcome}
    (h : on_approval_check c toks rs = some (c3, out)) :
    (out = ApprovalOutcome.failure ∧
      c3 = { c with potential_winners_left := c.potential_winners_left + 1 }) ∨
    (∃ ts, out = ApprovalOutcome.proceed ts ∧ c3 = c) := by
  unfold on_approval_check at h
  split at h
  · simp only [Option.some.injEq, Prod.mk.injEq] at h
    exact Or.inl ⟨h.2.symm, h.1.symm⟩
  · split at h
    · exact Option.noConfusion h
    · exact Option.noConfusion h
    · simp only [Option.some.injEq, Prod.mk.injEq] at h
      exact Or.inr ⟨_, h.2.symm, h.1.symm⟩

theorem on_burn_state (c : Contract) (w : String) (rs : List BurnResult) :
    (on_burn_nfts c w rs).1 =
      { c with potential_winners_left := c.potential_winners_left + 1 } ∨
    (on_burn_nfts c w rs).1 =
      { c with winner_count := c.winner_count + 1,
               winners := mapInsert w 1 c.winners } := by
  unfold on_burn_nfts
  split
  · exact Or.inl rfl
  · exact Or.inr rfl

theorem on_claim_notOwned {c c2 : Contract} {w : String} {rs : List OwnResult}
    {i : Nat} (h : on_claim c w rs = some (c2, ClaimOutcome.notOwned i)) :
    c2 = { c with potential_winners_left := c.potential_winners_left + 1 } := by
  rcases on_claim_state h with ⟨j, _, rfl⟩ | ⟨hk, _⟩ | ⟨t, ht, _⟩
  · rfl
  · exact ClaimOutcome.noConfusion hk
  · exact ClaimOutcome.noConfusion ht

theorem on_claim_committed {c c2 : Contract} {w : String} {rs : List OwnResult}
    (h : on_claim c w rs = some (c2, ClaimOutcome.committed)) :
    c2 = { c with winner_count := c.winner_count + 1,
                  winners := mapInsert w 1 c.winners } := by
  rcases on_claim_state h with ⟨j, hj, _⟩ | ⟨_, rfl⟩ | ⟨t, ht, _⟩
  · exact ClaimOutcome.noConfusion hj
  · rfl
  · exact ClaimOutcome.noConfusion ht

theorem on_claim_proceed {c c2 : Contract} {w : String} {rs : List OwnResult}
    {toks : List Nat}
    (h : on_claim c w rs = some (c2, ClaimOutcome.proceedBurn toks)) :
    c2 = c := by
  rcases on_claim_state h with ⟨j, hj, _⟩ | ⟨hk, _⟩ | ⟨t, _, rfl⟩
  · exact ClaimOutcome.noConfusion hj
  · exact ClaimOutcome.noConfusion hk
  · rfl

theorem on_approval_failure {c c3 : Contract} {toks : List Nat}
    {rs : List ApprovalResult}
    (h : on_approval_check c toks rs = some (c3, ApprovalOutcome.failure)) :
    c3 = { c with potential_winners_left := c.potential_winners_left + 1 } := by
  rcases on_approval_state h with ⟨_, rfl⟩ | ⟨t, ht, _⟩
  · rfl
  · exact ApprovalOutcome.noConfusion ht

theorem on_approval_proceed {c c3 : Contract} {toks : List Nat}
    {rs : List ApprovalResult} {ts : List (String × Nat × Nat)}
    (h : on_approval_check c toks rs = some (c3, ApprovalOutcome.proceed ts)) :
    c3 = c := by
  rcases on_approval_state h with ⟨hk, _⟩ | ⟨t, _, rfl⟩
  · exact ApprovalOutcome.noConfusion hk
  · rfl

theorem runSaga_counters {c c' : Contract} {caller : String} {now : Nat}
    {own : List OwnResult} {app : List ApprovalResult} {burn : List BurnResult}
    (h : runSaga c caller now own app burn = some c') :
    c'.winner_count + c'.potential_winners_left =
      c.winner_count + c.potential_winners_left ∧
    c'.winner_limit = c.winner_limit := by
  unfold runSaga at h
  split at h
  · simp only [Option.some.injEq] at h
    subst h; exact ⟨rfl, rfl⟩
  · rename_i c1 hinit
    obtain ⟨hc1, hpwl⟩ := initiate_ok_spec hinit
    split at h
    · exact Option.noConfusion h
    · rename_i c2 idx hclaim
      simp only [Option.some.injEq] at h
      subst h
      rw [on_claim_notOwned hclaim, hc1]
      refine ⟨?_, rfl⟩
      show c.winner_count + (c.potential_winners_left - 1 + 1) =
        c.winner_count + c.potential_winners_left
      omega
    · rename_i c2 hclaim
      simp only [Option.some.injEq] at h
      subst h
      rw [on_claim_committed hclaim, hc1]
      refine ⟨?_, rfl⟩
      show c.winner_count + 1 + (c.potential_winners_left - 1) =
        c.winner_count + c.potential_winners_left
      omega
    · rename_i c2 tokenIds hclaim
      rw [on_claim_proceed hclaim, hc1] at h
      split at h
      · exact Option.noConfusion h
      · split at h
        · exact Option.noConfusion h
        · rename_i c3 happ
          simp only [Option.some.injEq] at h
          subst h
          rw [on_approval_failure happ]
          refine ⟨?_, rfl⟩
          show c.winner_count + (c.potential_winners_left - 1 + 1) =
            c.winner_count + c.potential_winners_left
          omega
        · rename_i c3 ts happ
          rw [on_approval_proceed happ] at h
          split at h
          · exact Option.noConfusion h
          · simp only [Option.some.injEq] at h
            subst h
            rcases on_burn_state
                { c with potential_winners_left := c.potential_winners_left - 1 }
                caller burn with hb | hb <;> rw [hb]
            · refine ⟨?_, rfl⟩
              show c.winner_count + (c.potential_winners_left - 1 + 1) =
                c.winner_count + c.potential_winners_left
              omega
            · refine ⟨?_, rfl⟩
              show c.winner_count + 1 + (c.potential_winners_left - 1) =
                c.winner_count + c.potential_winners_left
              omega

theorem step_counters {c c' : Contract} (h : Step c c') :
    c'.winner_count + c'.potential_winners_left =
      c.winner_count + c.potential_winners_left ∧
    c'.winner_limit = c.winner_limit := by
  cases h with
  | saga c2 caller now own app burn hs => exact runSaga_counters hs
  | toggle c2 caller b ht =>
    unfold update_challenge_completion_status at ht
    split_ifs at ht <;>
      first
        | exact Except.noConfusion ht
        | (injection ht with ht; subst ht; exact ⟨rfl, rfl⟩)
  | toggleFail caller b e ht => exact ⟨rfl, rfl⟩
  | expiry now =>
    unfold ensure_challenge_not_expired
    split <;> exact ⟨rfl, rfl⟩
  | mint c2 caller deposit hm =>
    unfold mint_nft at hm
    split_ifs at hm <;>
      first
        | exact Except.noConfusion hm
        | (injection hm with hm; subst hm; exact ⟨rfl, rfl⟩)

theorem burnTokensAux_eq (flags : List Bool) (rs : List OwnResult) :
    ∀ i, i + rs.length ≤ flags.length →
      burnTokensAux flags i rs = some (capturedSpec rs (flags.drop i)) := by
  induction rs with
  | nil =>
    intro i hi
    rfl
  | cons r rs ih =>
    intro i hi
    have hilt : i < flags.length := by
      simp only [List.length_cons] at hi; omega
    have hnext : i + 1 + rs.length ≤ flags.length := by
      simp only [List.length_cons] at hi; omega
    have hdrop : flags.drop i = flags[i] :: flags.drop (i + 1) :=
      List.drop_eq_getElem_cons hilt
    have hget : flags[i]? = some flags[i] := List.getElem?_eq_getElem hilt
    match r with
    | OwnResult.failed =>
      rw [hdrop]
      show burnTokensAux flags (i + 1) rs =
        some (capturedSpec rs (flags.drop (i + 1)))
      exact ih (i + 1) hnext
    | OwnResult.successful none =>
      rw [hdrop]
      show burnTokensAux flags (i + 1) rs =
        some (capturedSpec rs (flags.drop (i + 1)))
      exact ih (i + 1) hnext
    | OwnResult.successful (some []) =>
      rw [hdrop]
      show burnTokensAux flags (i + 1) rs =
        some (capturedSpec rs (flags.drop (i + 1)))
      exact ih (i + 1) hnext
    | OwnResult.successful (some (t :: ts)) =>
      rw [hdrop]
      show (match flags[i]? with
            | none => none
            | some true => (burnTokensAux flags (i + 1) rs).map (fun l => t :: l)
            | some false => burnTokensAux flags (i + 1) rs) =
        some (capturedSpec (OwnResult.successful (some (t :: ts)) :: rs)
              (flags[i] :: flags.drop (i + 1)))
      rw [hget]
      cases hb : flags[i] with
      | true =>
        show (burnTokensAux flags (i + 1) rs).map (fun l => t :: l) =
          some (t :: capturedSpec rs (flags.drop (i + 1)))
        rw [ih (i + 1) hnext]
        rfl
      | false =>
        show burnTokensAux flags (i + 1) rs =
          some (capturedSpec rs (flags.drop (i + 1)))
        exact ih (i + 1) hnext

theorem capturedSpec_nil_of_no_burn (rs : List OwnResult) (bs : List Bool)
    (h : ∀ b ∈ bs, b = false) : capturedSpec rs bs = [] := by
  induction rs generalizing bs with
  | nil => rfl
  | cons r rs ih =>
    cases bs with
    | nil =>
      match r with
      | OwnResult.failed => rfl
      | OwnResult.successful none => rfl
      | OwnResult.successful (some []) => rfl
      | OwnResult.successful (some (t :: ts)) => rfl
    | cons b bs' =>
      have hb : b = false := h b (by simp)
      subst hb
      have hrest : ∀ x ∈ bs', x = false := fun x hx => h x (by simp [hx])
      match r with
      | OwnResult.failed => exact ih bs' hrest
      | OwnResult.successful none => exact ih bs' hrest
      | OwnResult.successful (some []) => exact ih bs' hrest
      | OwnResult.successful (some (t :: ts)) => exact ih bs' hrest

/-! ## Claim theorems -/

/-- C3: in every reachable at-rest state (each initiated claim saga has
reached a terminal branch — commit or compensation; note a precondition
rejection reverts and a mid-saga panic never reaches a terminal branch, so
such runs are excluded by construction of `Step`),
`winner_count + potential_winners_left = winner_limit` and
`winner_count ≤ winner_limit`: every terminal saga branch either keeps the
reserved slot and increments `winner_count` by one, or restores
`potential_winners_left` by one, never both and never neither. -/
theorem C3_ledger_invariant (c : Contract) (h : Reachable c) :
    c.winner_count + c.potential_winners_left = c.winner_limit ∧
    c.winner_count ≤ c.winner_limit := by
  have main : c.winner_count + c.potential_winners_left = c.winner_limit := by
    induction h with
    | init o ids flags e l u c0 hnew =>
      unfold Contract.new at hnew
      split_ifs at hnew
      injection hnew with hnew
      subst hnew
      simp
    | step c0 c1 hr hs ih =>
      obtain ⟨hsum, hlim⟩ := step_counters hs
      omega
  exact ⟨main, by omega⟩

/-- Witness for C3: the freshly constructed single-item challenge is
reachable and satisfies the ledger invariant. -/
theorem C3_witness :
    exampleSingle.winner_count + exampleSingle.potential_winners_left =
      exampleSingle.winner_limit ∧
    exampleSingle.winner_count ≤ exampleSingle.winner_limit :=
  C3_ledger_invariant exampleSingle
    (Reachable.init "o" ["x"] [false] 100 1 true exampleSingle (by decide))

/-- C1 (code bug): with the mixed burn flags `[true, false]` of the
repository unit-test configuration and a claimant who owns both required
items, `on_claim` captures only one token id (the burn-flagged index), yet
`have_approvals_for_transfers` indexes the captured list by the full item
index `0..burn_flags.length`; the access at index 1 is out of bounds
(`none` models the Rust panic), so no aligned approval call per item is
issued and the saga is stranded with the reserved slot never restored. -/
theorem C1_approval_index_out_of_bounds :
    on_claim exampleMixed "claimant"
        [OwnResult.successful (some [10]), OwnResult.successful (some [11])] =
      some (exampleMixed, ClaimOutcome.proceedBurn [10]) ∧
    have_approvals_for_transfers exampleMixed [10] = none ∧
    runSaga exampleMixed "claimant" 0
        [OwnResult.successful (some [10]), OwnResult.successful (some [11])]
        [] [] = none := by
  refine ⟨by decide, by decide, by decide⟩

/-- C2 counterexample: starting from the fresh `winner_limit = 1` challenge,
account `w` claims and commits (reaching `winner_count = 1`,
`potential_winners_left = 0`); a subsequent `initiate_claim` by the distinct
non-winner account `loser` is rejected with the max-potential-winners
("slots exhausted") reason, not the winner-limit-reached reason the claim
names. -/
theorem C2_counterexample :
    runSaga exampleSingle "w" 0 [OwnResult.successful (some [5])] [] [] =
      some exampleDone ∧
    is_account_winner exampleDone "loser" = false ∧
    initiate_claim exampleDone "loser" 0 =
      Except.error ClaimError.maxPotentialWinners ∧
    ClaimError.maxPotentialWinners ≠ ClaimError.winnerLimitReached := by
  refine ⟨by decide, by decide, rfl, by decide⟩

/-- C2 amended: in the state after the winning commit under
`winner_limit = 1` (`winner_count = 1`, `potential_winners_left = 0`), a
subsequent `initiate_claim` by any account is rejected with the
max-potential-winners ("slots exhausted") reason, because the
`potential_winners_left == 0` check precedes the winner-limit check. -/
theorem C2_amended_rejection_reason (c : Contract) (caller : String) (now : Nat)
    (hlimit : c.winner_limit = 1) (hwc : c.winner_count = 1)
    (hpwl : c.potential_winners_left = 0) :
    initiate_claim c caller now = Except.error ClaimError.maxPotentialWinners := by
  unfold initiate_claim
  rw [if_pos hpwl]

/-- Witness for C2: the amended rejection reason evaluated in the
post-commit state. -/
theorem C2_witness :
    exampleDone.winner_limit = 1 ∧ exampleDone.winner_count = 1 ∧
    exampleDone.potential_winners_left = 0 ∧
    initiate_claim exampleDone "loser" 0 =
      Except.error ClaimError.maxPotentialWinners :=
  ⟨rfl, rfl, rfl, C2_amended_rejection_reason exampleDone "loser" 0 rfl rfl rfl⟩

/-- C4 counterexample: with `creator_can_update` set, the owner's toggle
`update_challenge_completion_status(false)` resets a completed challenge
back to `challenge_completed = false`, so the flag is not monotone under
every operation. -/
theorem C4_counterexample :
    ({ exampleSingle with challenge_completed := true }).challenge_completed
      = true ∧
    update_challenge_completion_status
        { exampleSingle with challenge_completed := true } "o" false =
      Except.ok exampleSingle ∧
    exampleSingle.challenge_completed = false := by
  refine ⟨rfl, rfl, rfl⟩

/-- C4 amended: `challenge_completed` is monotone (once `true`, it stays
`true`) under every operation except the owner's completion toggle — a
complete claim saga, the public expiry check, and minting all preserve it —
while `update_challenge_completion_status` simply sets the flag to its
boolean argument and can therefore reset it. -/
theorem C4_amended_monotone (c : Contract) (h : c.challenge_completed = true) :
    (∀ caller now own app burn c',
      runSaga c caller now own app burn = some c' →
        c'.challenge_completed = true) ∧
    (∀ now, ((ensure_challenge_not_expired c now).1).challenge_completed
      = true) ∧
    (∀ caller b c',
      update_challenge_completion_status c caller b = Except.ok c' →
        c'.challenge_completed = b) ∧
    (∀ caller deposit c', mint_nft c caller deposit = Except.ok c' →
        c'.challenge_completed = true) := by
  refine ⟨?_, ?_, ?_, ?_⟩
  · intro caller now own app burn c' hsaga
    obtain ⟨e, he⟩ := @initiate_error_of_completed c caller now h
    unfold runSaga at hsaga
    rw [he] at hsaga
    simp only [Option.some.injEq] at hsaga
    subst hsaga
    exact h
  · intro now
    unfold ensure_challenge_not_expired
    split
    · rfl
    · exact h
  · intro caller b c' ht
    unfold update_challenge_completion_status at ht
    split_ifs at ht <;>
      first
        | exact Except.noConfusion ht
        | (injection ht with ht; subst ht; rfl)
  · intro caller deposit c' hm
    unfold mint_nft at hm
    split_ifs at hm <;>
      first
        | exact Except.noConfusion hm
        | (injection hm with hm; subst hm; exact h)

/-- Witness for C4: the amended monotonicity evaluated on the completed
single-item challenge, via the expiry-check conjunct at time 0. -/
theorem C4_witness :
    ((ensure_challenge_not_expired
        { exampleSingle with challenge_completed := true } 0).1).challenge_completed
      = true :=
  (C4_amended_monotone { exampleSingle with challenge_completed := true } rfl).2.1 0

/-- C5: whenever the claimant is already recorded in the winners map,
`initiate_claim` panics at the Preconditions stage — the resulting error is
one of the five precondition reasons, never the post-reservation
`noPromises` panic — and the attempt leaves the state (in particular
`winner_count` and `potential_winners_left`) unchanged. -/
theorem C5_winner_rejected_preconditions (c : Contract) (caller : String)
    (now : Nat) (h : is_account_winner c caller = true) :
    (∃ e, initiate_claim c caller now = Except.error e ∧
      e ≠ ClaimError.noPromises) ∧
    attemptClaim c caller now = c := by
  have hinit : ∃ e, initiate_claim c caller now = Except.error e ∧
      e ≠ ClaimError.noPromises := by
    unfold initiate_claim
    by_cases h1 : c.potential_winners_left = 0
    · rw [if_pos h1]; exact ⟨_, rfl, by decide⟩
    · rw [if_neg h1]
      by_cases h2 : c.winner_count ≥ c.winner_limit
      · rw [if_pos h2]; exact ⟨_, rfl, by decide⟩
      · rw [if_neg h2]
        by_cases h3 : c.challenge_completed = true
        · rw [if_pos h3]; exact ⟨_, rfl, by decide⟩
        · rw [if_neg h3]
          by_cases h4 : (ensure_challenge_not_expired c now).2 = true
          · rw [if_pos h4]; exact ⟨_, rfl, by decide⟩
          · rw [if_neg h4, if_pos (show is_account_winner c caller = true from h)]
            exact ⟨_, rfl, by decide⟩
  obtain ⟨e, he, hne⟩ := hinit
  refine ⟨⟨e, he, hne⟩, ?_⟩
  unfold attemptClaim
  rw [he]

/-- Witness for C5: the recorded winner `w` of the committed challenge is
rejected with state unchanged. -/
theorem C5_witness :
    is_account_winner exampleDone "w" = true ∧
    attemptClaim exampleDone "w" 0 = exampleDone :=
  ⟨by decide, (C5_winner_rejected_preconditions exampleDone "w" 0 (by decide)).2⟩

/-- C6 counterexample: with the single burn flag cleared, index 0 is owned
with first token id 7, yet the captured token-id list (`token_ids_to_burn`)
is empty — the token id of an owned index is recorded only when that index
is burn-flagged, refuting the claim that every owned index's first token id
is recorded. -/
theorem C6_counterexample :
    ownVerdict (OwnResult.successful (some [7])) = true ∧
    burnTokensAux [false] 0 [OwnResult.successful (some [7])] = some [] ∧
    ¬ (7 ∈ ([] : List Nat)) ∧
    on_claim exampleSingle "w" [OwnResult.successful (some [7])] =
      some ({ exampleSingle with
              winner_count := 1
              winners := [("w", 1)] }, ClaimOutcome.committed) := by
  refine ⟨rfl, rfl, by decide, by decide⟩

/-- C6 amended: in the ownership fan-in, a failed result or an empty or
undeserializable successful result counts as not-owned, a non-empty
successful result counts as owned and — when that index's burn flag is set —
records the first returned token's id; and if any index is not-owned, the
slot is released exactly once, the logged index is a not-owned index, and
the saga ends with `winner_count` and the winners map unchanged. -/
theorem C6_amended_on_claim (c : Contract) (w : String)
    (results : List OwnResult)
    (hlen : results.length = c.burn_challenge_piece_on_claim.length) :
    (∀ r, ownVerdict r = true ↔
      ∃ t ts, r = OwnResult.successful (some (t :: ts))) ∧
    burnTokensAux c.burn_challenge_piece_on_claim 0 results =
      some (capturedSpec results c.burn_challenge_piece_on_claim) ∧
    ((∃ r ∈ results, ownVerdict r = false) →
      ∃ idx, on_claim c w results =
          some ({ c with
                  potential_winners_left := c.potential_winners_left + 1 },
                ClaimOutcome.notOwned idx) ∧
        ∃ hx : idx < results.length,
          ownVerdict (results.get ⟨idx, hx⟩) = false) := by
  have hbt : burnTokensAux c.burn_challenge_piece_on_claim 0 results =
      some (capturedSpec results c.burn_challenge_piece_on_claim) := by
    have h0 := burnTokensAux_eq c.burn_challenge_piece_on_claim results 0
      (by omega)
    rwa [List.drop_zero] at h0
  refine ⟨?_, hbt, ?_⟩
  · intro r
    match r with
    | OwnResult.failed => simp [ownVerdict]
    | OwnResult.successful none => simp [ownVerdict]
    | OwnResult.successful (some []) => simp [ownVerdict]
    | OwnResult.successful (some (t :: ts)) =>
      constructor
      · intro _
        exact ⟨t, ts, rfl⟩
      · intro _
        rfl
  · intro hbad
    obtain ⟨r, hr, hrv⟩ := hbad
    have hany : (results.map ownVerdict).any (fun b => !b) = true := by
      rw [List.any_eq_true]
      exact ⟨ownVerdict r, List.mem_map_of_mem ownVerdict hr, by rw [hrv]; rfl⟩
    have hsome : ((results.map ownVerdict).findIdx? (fun b => !b)).isSome := by
      rw [List.findIdx?_isSome]; exact hany
    obtain ⟨idx, hidx⟩ := Option.isSome_iff_exists.mp hsome
    obtain ⟨hlt, hp, _⟩ := List.findIdx?_eq_some_iff_getElem.mp hidx
    have hlt' : idx < results.length := by
      simpa using hlt
    refine ⟨idx, ?_, hlt', ?_⟩
    · unfold on_claim
      rw [hbt, hidx]
    · have hgm : (results.map ownVerdict)[idx] =
          ownVerdict (results.get ⟨idx, hlt'⟩) := by
        simp
      simp only [hgm] at hp
      cases hcase : ownVerdict (results.get ⟨idx, hlt'⟩) with
      | false => rfl
      | true => rw [hcase] at hp; exact absurd hp (by decide)

/-- Witness for C6: the amended fan-in behaviour evaluated on the mixed
two-item challenge where index 0 fails: the slot is released once and the
logged index is not-owned. -/
theorem C6_witness :
    ∃ idx, on_claim exampleMixed "w"
        [OwnResult.failed, OwnResult.successful (some [11])] =
        some ({ exampleMixed with
                potential_winners_left := exampleMixed.potential_winners_left + 1 },
              ClaimOutcome.notOwned idx) ∧
      ∃ hx : idx < ([OwnResult.failed,
          OwnResult.successful (some [11])] : List OwnResult).length,
        ownVerdict (([OwnResult.failed,
          OwnResult.successful (some [11])] : List OwnResult).get ⟨idx, hx⟩)
          = false :=
  (C6_amended_on_claim exampleMixed "w"
      [OwnResult.failed, OwnResult.successful (some [11])] (by decide)).2.2
    ⟨OwnResult.failed, by decide, rfl⟩

/-- C7: when the claimant owns every required item and no item is
burn-flagged, `on_claim` commits immediately: `winner_count` increases by
exactly one, the claimant is inserted into the winners map (so
`is_account_winner` becomes true), `potential_winners_left` is not
restored, and the saga ends in the `committed` outcome — no approval,
transfer or burn fan-out is issued. -/
theorem C7_no_burn_commit (c : Contract) (w : String)
    (results : List OwnResult)
    (hlen : results.length = c.burn_challenge_piece_on_claim.length)
    (hown : ∀ r ∈ results, ownVerdict r = true)
    (hnoburn : ∀ b ∈ c.burn_challenge_piece_on_claim, b = false) :
    on_claim c w results =
      some ({ c with winner_count := c.winner_count + 1,
                     winners := mapInsert w 1 c.winners },
            ClaimOutcome.committed) ∧
    is_account_winner
      { c with winner_count := c.winner_count + 1,
               winners := mapInsert w 1 c.winners } w = true := by
  have hbt : burnTokensAux c.burn_challenge_piece_on_claim 0 results =
      some [] := by
    have h0 := burnTokensAux_eq c.burn_challenge_piece_on_claim results 0
      (by omega)
    rw [List.drop_zero,
      capturedSpec_nil_of_no_burn results c.burn_challenge_piece_on_claim hnoburn]
      at h0
    exact h0
  have hfi : (results.map ownVerdict).findIdx? (fun b => !b) = none := by
    rw [List.findIdx?_eq_none_iff]
    intro x hx
    obtain ⟨r, hr, rfl⟩ := List.mem_map.mp hx
    rw [hown r hr]
    rfl
  constructor
  · unfold on_claim
    rw [hbt, hfi]
    rfl
  · exact mapContains_insert_self w 1 c.winners

/-- Witness for C7: the single-item no-burn challenge with a claimant
owning the item commits with the claimant registered as winner. -/
theorem C7_witness :
    on_claim exampleSingle "w" [OwnResult.successful (some [5])] =
      some ({ exampleSingle with
              winner_count := exampleSingle.winner_count + 1,
              winners := mapInsert "w" 1 exampleSingle.winners },
            ClaimOutcome.committed) ∧
    is_account_winner
      { exampleSingle with
        winner_count := exampleSingle.winner_count + 1,
        winners := mapInsert "w" 1 exampleSingle.winners } "w" = true :=
  C7_no_burn_commit exampleSingle "w" [OwnResult.successful (some [5])]
    (by decide) (by decide) (by decide)

/-- C8: in the burn fan-in, if every burn promise succeeded the saga
commits (`winner_count + 1`, claimant inserted into the winners map) and
returns `true`; if any burn failed, the slot is released exactly once and
the saga returns `false` with `winner_count` and the winners map
unchanged. -/
theorem C8_burn_fan_in (c : Contract) (w : String)
    (results : List BurnResult) :
    ((∀ r ∈ results, r = BurnResult.successful) →
      on_burn_nfts c w results =
        ({ c with winner_count := c.winner_count + 1,
                  winners := mapInsert w 1 c.winners }, true)) ∧
    ((∃ r ∈ results, r = BurnResult.failed) →
      on_burn_nfts c w results =
        ({ c with potential_winners_left := c.potential_winners_left + 1 },
         false)) := by
  constructor
  · intro hall
    have hfi : (results.map burnVerdict).findIdx? (fun b => !b) = none := by
      rw [List.findIdx?_eq_none_iff]
      intro x hx
      obtain ⟨r, hr, rfl⟩ := List.mem_map.mp hx
      rw [hall r hr]
      rfl
    unfold on_burn_nfts
    rw [hfi]
  · intro hbad
    obtain ⟨r, hr, hrf⟩ := hbad
    have hany : (results.map burnVerdict).any (fun b => !b) = true := by
      rw [List.any_eq_true]
      refine ⟨burnVerdict r, List.mem_map_of_mem burnVerdict hr, ?_⟩
      rw [hrf]
      rfl
    have hsome : ((results.map burnVerdict).findIdx? (fun b => !b)).isSome := by
      rw [List.findIdx?_isSome]; exact hany
    obtain ⟨idx, hidx⟩ := Option.isSome_iff_exists.mp hsome
    unfold on_burn_nfts
    rw [hidx]

/-- Witness for C8: both branches evaluated on a single burn result. -/
theorem C8_witness :
    on_burn_nfts exampleSingle "w" [BurnResult.successful] =
      ({ exampleSingle with
         winner_count := exampleSingle.winner_count + 1,
         winners := mapInsert "w" 1 exampleSingle.winners }, true) :=
  (C8_burn_fan_in exampleSingle "w" [BurnResult.successful]).1 (by decide)

/-- C9: `mint_nft` fails unless the caller is a recorded winner and the
attached deposit is at least the 54-millinear fee floor; and neither
`mint_nft` nor `mint_nft_callback` (including its failure branch, which
panics and therefore reverts) changes the contract state — in particular
`winner_count`, `potential_winners_left`, the winners map and
`challenge_completed` are untouched. -/
theorem C9_mint_guards_and_frame (c : Contract) (caller : String)
    (deposit : Nat) :
    (¬ (is_account_winner c caller = true ∧ 54 ≤ as_millinear deposit) →
      ∃ e, mint_nft c caller deposit = Except.error e) ∧
    (∀ c', mint_nft c caller deposit = Except.ok c' → c' = c) ∧
    (∀ r c', mint_nft_callback c r = Except.ok c' → c' = c) := by
  refine ⟨?_, ?_, ?_⟩
  · intro hne
    unfold mint_nft
    by_cases h1 : is_account_winner c caller = true
    · rw [if_neg (not_not_intro h1)]
      by_cases h2 : as_millinear deposit < 54
      · rw [if_pos h2]
        exact ⟨_, rfl⟩
      · exact absurd ⟨h1, by omega⟩ hne
    · rw [if_pos h1]
      exact ⟨_, rfl⟩
  · intro c' hm
    unfold mint_nft at hm
    split_ifs at hm <;>
      first
        | exact Except.noConfusion hm
        | (injection hm with hm; exact hm.symm)
  · intro r c' hcb
    match r with
    | Except.error u => exact Except.noConfusion hcb
    | Except.ok u => injection hcb with hcb; exact hcb.symm

/-- Witness for C9: a non-winner caller with no deposit is rejected. -/
theorem C9_witness :
    ∃ e, mint_nft exampleSingle "loser" 0 = Except.error e :=
  (C9_mint_guards_and_frame exampleSingle "loser" 0).1 (by decide)

/-- C10: at exactly the expiration timestamp with the challenge not yet
completed, the view `is_challenge_expired` reports `true` (its comparison
is `>=`), while the claim path's expiry rejection (via
`ensure_challenge_not_expired`, whose comparison is strict `>`) does not
fire: `initiate_claim` is never rejected with the `expired` reason at that
instant. -/
theorem C10_expiry_boundary (c : Contract) (caller : String)
    (hc : c.challenge_completed = false) :
    is_challenge_expired c c.expiration_date_in_ns = true ∧
    (ensure_challenge_not_expired c c.expiration_date_in_ns).2 = false ∧
    (∀ e, initiate_claim c caller c.expiration_date_in_ns = Except.error e →
      e ≠ ClaimError.expired) := by
  have hens : (ensure_challenge_not_expired c c.expiration_date_in_ns).2
      = false := by
    unfold ensure_challenge_not_expired
    rw [if_neg (by omega)]
    exact hc
  refine ⟨by simp [is_challenge_expired], hens, ?_⟩
  intro e he
  unfold initiate_claim at he
  split_ifs at he with h1 h2 h3 h4 h5 h6 <;>
    first
      | (injection he with he; subst he; decide)
      | exact absurd h3 (by rw [hc]; exact Bool.false_ne_true)
      | exact absurd h4 (by rw [hens]; exact Bool.false_ne_true)
      | exact Except.noConfusion he

/-- Witness for C10: the boundary behaviour on the fresh single-item
challenge at its expiration timestamp 100. -/
theorem C10_witness :
    is_challenge_expired exampleSingle exampleSingle.expiration_date_in_ns
      = true ∧
    (ensure_challenge_not_expired exampleSingle
      exampleSingle.expiration_date_in_ns).2 = false ∧
    (∀ e, initiate_claim exampleSingle "w" exampleSingle.expiration_date_in_ns
        = Except.error e → e ≠ ClaimError.expired) :=
  C10_expiry_boundary exampleSingle "w" rfl

end NFTChallenge
